import Mathlib

/-!
Verification development for the NPS analytics dashboard's enrichment
pipeline (packages/server: routes.ts, ai-processing-status.ts, local-llm.ts,
local-db.ts, and the ollama-llm.ts client).  The TypeScript sources are
shallowly embedded: JS strings become `List Char`/`String`, JS numbers that
carry survey data become `ℚ`/`Int`/`Nat`, `null`/`undefined` become `Option`,
and the two effectful boundaries (the Ollama generate call and the SQLite
store) become explicit oracle parameters.
-/

/- ===================== JS string primitives ===================== -/

/-- Whitespace as `comment.trim()` sees it.  JS `String.prototype.trim` also
strips some Unicode spaces; the sources only ever meet ASCII whitespace, which
this models exactly. -/
def jsWhitespaceChar (c : Char) : Bool :=
  c = ' ' || c = '\t' || c = '\n' || c = '\r'

def dropLeadingWs : List Char → List Char
  | [] => []
  | c :: rest => if jsWhitespaceChar c then dropLeadingWs rest else c :: rest

/-- JS `s.trim()` over the character list. -/
def trimChars (cs : List Char) : List Char :=
  ((dropLeadingWs cs).reverse |> dropLeadingWs).reverse

def jsTrim (s : String) : String := String.mk (trimChars s.data)

/-- JS `s.toLowerCase()`; the keyword tables are ASCII so `Char.toLower`
models the conversion exactly on every character the code compares. -/
def jsToLower (s : String) : String := String.mk (s.data.map Char.toLower)

/-- JS `hay.includes(needle)`: substring containment. -/
def containsSub (needle : List Char) : List Char → Bool
  | [] => needle.isEmpty
  | c :: rest => needle.isPrefixOf (c :: rest) || containsSub needle rest

/- ===================== JSON values and JSON.parse ===================== -/

/-- The values `JSON.parse` can produce.  Numbers are modelled as rationals
(JSON numeric literals are decimal strings; every literal the model emits is
exactly representable). -/
inductive JValue where
  | null
  | bool (b : Bool)
  | num (q : ℚ)
  | str (s : String)
  | arr (xs : List JValue)
  | obj (fields : List (String × JValue))

/-- Object member lookup, JS semantics: a duplicated key keeps the LAST
occurrence (`JSON.parse('{"a":1,"a":2}').a === 2`); `none` models `undefined`. -/
def getField : List (String × JValue) → String → Option JValue
  | [], _ => none
  | (k, v) :: rest, key =>
    match getField rest key with
    | some w => some w
    | none => if k == key then some v else none

/-- JS property access `v.key` (`undefined` off non-objects). -/
def fieldOf : JValue → String → Option JValue
  | .obj fs, key => getField fs key
  | _, _ => none

/-- JS truthiness of a JSON value. -/
def jsTruthyJ : JValue → Bool
  | .null => false
  | .bool b => b
  | .num q => !(q == 0)
  | .str s => !(s == "")
  | .arr _ => true
  | .obj _ => true

/-- JS `v || dflt` where `v` may be `undefined` (`none`). -/
def jsOrJ (v : Option JValue) (dflt : JValue) : JValue :=
  match v with
  | some w => if jsTruthyJ w then w else dflt
  | none => dflt

/-- JS `ToNumber` on a JSON value, as `Math.max`/`Math.min` coerce their
argument; `none` models `NaN`.  Strings coerce through JS numeric-string
parsing and arrays through `toString`; both are modelled as `NaN`, which is
exact for non-numeric strings and unreachable in every theorem below (their
hypotheses restrict the coerced field to numbers or absent/falsy values). -/
def jsToNumber : JValue → Option ℚ
  | .num q => some q
  | .bool b => some (if b then 1 else 0)
  | .null => some 0
  | .str _ => none
  | .arr _ => none
  | .obj _ => none

/-- `Math.max (·, b)` with NaN propagation. -/
def jsMax (a : Option ℚ) (b : ℚ) : Option ℚ := a.map (fun q => max q b)

/-- `Math.min (·, b)` with NaN propagation. -/
def jsMin (a : Option ℚ) (b : ℚ) : Option ℚ := a.map (fun q => min q b)

def digitVal (c : Char) : Option Nat :=
  if '0' ≤ c && c ≤ '9' then some (c.toNat - 48) else none

def hexVal (c : Char) : Option Nat :=
  let n := c.toNat
  if 48 ≤ n && n ≤ 57 then some (n - 48)
  else if 97 ≤ n && n ≤ 102 then some (n - 87)
  else if 65 ≤ n && n ≤ 70 then some (n - 55)
  else none

/-- JSON string body after the opening quote: content and what follows the
closing quote.  Escapes are those of the JSON grammar; a raw control
character is a parse error, as in `JSON.parse`. -/
def parseStringBody : List Char → Option (List Char × List Char)
  | [] => none
  | '"' :: rest => some ([], rest)
  | '\\' :: 'u' :: u1 :: u2 :: u3 :: u4 :: rest =>
    match hexVal u1, hexVal u2, hexVal u3, hexVal u4 with
    | some v1, some v2, some v3, some v4 =>
      (parseStringBody rest).map fun p =>
        (Char.ofNat (v1 * 4096 + v2 * 256 + v3 * 16 + v4) :: p.1, p.2)
    | _, _, _, _ => none
  | '\\' :: e :: rest =>
    let esc : Option Char :=
      if e = '"' then some '"'
      else if e = '\\' then some '\\'
      else if e = '/' then some '/'
      else if e = 'b' then some (Char.ofNat 8)
      else if e = 'f' then some (Char.ofNat 12)
      else if e = 'n' then some '\n'
      else if e = 'r' then some '\r'
      else if e = 't' then some '\t'
      else none
    match esc with
    | some ch => (parseStringBody rest).map fun p => (ch :: p.1, p.2)
    | none => none
  | c :: rest =>
    if c.toNat < 32 then none
    else (parseStringBody rest).map fun p => (c :: p.1, p.2)

/-- Read a run of decimal digits: accumulated value, digit count, rest. -/
def parseDigits : List Char → Nat → Nat → Nat × Nat × List Char
  | [], acc, k => (acc, k, [])
  | c :: rest, acc, k =>
    match digitVal c with
    | some d => parseDigits rest (acc * 10 + d) (k + 1)
    | none => (acc, k, c :: rest)

/-- JSON integer part: `0`, or a nonzero digit followed by digits (leading
zeros are a parse error, as in `JSON.parse`). -/
def parseIntPart : List Char → Option (Nat × List Char)
  | [] => none
  | '0' :: rest => some (0, rest)
  | c :: rest =>
    match digitVal c with
    | some d =>
      if d = 0 then none
      else
        let t := parseDigits rest d 1
        some (t.1, t.2.2)
    | none => none

/-- JSON fraction part (empty when no `.`): digits value, digit count, rest. -/
def parseFracPart : List Char → Option (Nat × Nat × List Char)
  | '.' :: rest =>
    let t := parseDigits rest 0 0
    if t.2.1 = 0 then none else some t
  | cs => some (0, 0, cs)

/-- JSON exponent part (0 when no `e`/`E`). -/
def parseExpPart : List Char → Option (Int × List Char)
  | [] => some (0, [])
  | c :: rest =>
    if c = 'e' || c = 'E' then
      let sr : Int × List Char :=
        match rest with
        | '+' :: r => (1, r)
        | '-' :: r => (-1, r)
        | r => (1, r)
      let t := parseDigits sr.2 0 0
      if t.2.1 = 0 then none else some (sr.1 * (t.1 : Int), t.2.2)
    else some (0, c :: rest)

/-- The rational value of a decimal literal `±base × 10^e`. -/
def decToRat (neg : Bool) (base : Nat) (e : Int) : ℚ :=
  let m : ℚ := if neg then -(base : ℚ) else (base : ℚ)
  if 0 ≤ e then m * 10 ^ e.toNat else m / 10 ^ (-e).toNat

def parseNumber (cs : List Char) : Option (ℚ × List Char) := do
  let sn : Bool × List Char :=
    match cs with
    | '-' :: r => (true, r)
    | r => (false, r)
  let (ip, cs2) ← parseIntPart sn.2
  let (fv, fk, cs3) ← parseFracPart cs2
  let (ex, cs4) ← parseExpPart cs3
  some (decToRat sn.1 (ip * 10 ^ fk + fv) (ex - (fk : Int)), cs4)

mutual

/-- Recursive-descent `JSON.parse` over the character list, fuelled (the fuel
given at top level always suffices, see `parseJsonText`). -/
def parseValueF : Nat → List Char → Option (JValue × List Char)
  | 0, _ => none
  | fuel + 1, cs =>
    match dropLeadingWs cs with
    | [] => none
    | '"' :: rest => (parseStringBody rest).map fun p => (.str (String.mk p.1), p.2)
    | '{' :: rest =>
      (match dropLeadingWs rest with
       | '}' :: r => some (.obj [], r)
       | _ => parseMembersF fuel rest [])
    | '[' :: rest =>
      (match dropLeadingWs rest with
       | ']' :: r => some (.arr [], r)
       | _ => parseElementsF fuel rest [])
    | 't' :: 'r' :: 'u' :: 'e' :: rest => some (.bool true, rest)
    | 'f' :: 'a' :: 'l' :: 's' :: 'e' :: rest => some (.bool false, rest)
    | 'n' :: 'u' :: 'l' :: 'l' :: rest => some (.null, rest)
    | other => (parseNumber other).map fun p => (.num p.1, p.2)

/-- Object members after `{` (at least one member pending). -/
def parseMembersF : Nat → List Char → List (String × JValue) →
    Option (JValue × List Char)
  | 0, _, _ => none
  | fuel + 1, cs, acc =>
    match dropLeadingWs cs with
    | '"' :: r =>
      (parseStringBody r).bind fun kp =>
        match dropLeadingWs kp.2 with
        | ':' :: r2 =>
          (parseValueF fuel r2).bind fun vp =>
            let acc2 := acc ++ [(String.mk kp.1, vp.1)]
            match dropLeadingWs vp.2 with
            | ',' :: r4 => parseMembersF fuel r4 acc2
            | '}' :: r4 => some (.obj acc2, r4)
            | _ => none
        | _ => none
    | _ => none

/-- Array elements after `[` (at least one element pending). -/
def parseElementsF : Nat → List Char → List JValue → Option (JValue × List Char)
  | 0, _, _ => none
  | fuel + 1, cs, acc =>
    (parseValueF fuel cs).bind fun vp =>
      let acc2 := acc ++ [vp.1]
      match dropLeadingWs vp.2 with
      | ',' :: r => parseElementsF fuel r acc2
      | ']' :: r => some (.arr acc2, r)
      | _ => none

end

/-- `JSON.parse(s)`: one value, then only whitespace (anything else throws,
modelled as `none`). -/
def parseJsonText (s : String) : Option JValue :=
  match parseValueF (2 * s.data.length + 4) s.data with
  | some (v, rest) => if (dropLeadingWs rest).isEmpty then some v else none
  | none => none

/- ===================== The two regex extractions ===================== -/

/-- The suffix starting at the first `{`. -/
def fromFirstBrace : List Char → Option (List Char)
  | [] => none
  | '{' :: rest => some ('{' :: rest)
  | _ :: rest => fromFirstBrace rest

/-- The prefix ending at the first `}` (inclusive). -/
def toFirstClose : List Char → Option (List Char)
  | [] => none
  | '}' :: _ => some ['}']
  | c :: rest => (toFirstClose rest).map fun t => c :: t

/-- The prefix ending at the last `}` (inclusive). -/
def toLastClose (cs : List Char) : Option (List Char) :=
  let tail := cs.reverse.dropWhile (fun c => !(c == '}'))
  if tail.isEmpty then none else some tail.reverse

/-- `response.match(/\x7b[\s\S]*?\x7d/)` (ollama-llm.ts, lazy): the span from
the first `{` to the first `}` after it.  A match exists iff some `{` is
followed by a `}`, and then the earliest such `{` is the first `{` overall. -/
def braceMatchLazy (s : String) : Option String :=
  (fromFirstBrace s.data).bind fun suf =>
    match suf with
    | b :: rest => (toFirstClose rest).map fun t => String.mk (b :: t)
    | [] => none

/-- `response.match(/\x7b[\s\S]*\x7d/)` (local-llm.ts, greedy): the span from
the first `{` to the last `}` of the string. -/
def braceMatchGreedy (s : String) : Option String :=
  (fromFirstBrace s.data).bind fun suf =>
    match suf with
    | b :: rest => (toLastClose rest).map fun t => String.mk (b :: t)
    | [] => none

/- ===================== Classification clients ===================== -/

/-- Outcome of one `generate` call against the Ollama endpoint: the raw
`response` string of a 2xx reply, or a throw (non-2xx status or network
error).  `generate` itself returns `data.response.trim()`; the `.trim()` is
applied in the embeddings below. -/
inductive GenResult where
  | reply (raw : String)
  | failure

/-- local-llm.ts `languageNames` lookup with its `|| 'English'` fallback. -/
def languageNameL (language : String) : String :=
  if language == "de" then "German"
  else if language == "fr" then "French"
  else if language == "it" then "Italian"
  else if language == "en" then "English"
  else "English"

/-- The sentiment prompt of `LocalLLM.analyzeSentiment` (local-llm.ts). -/
def localSentimentPrompt (comment language : String) : String :=
  "Analyze the sentiment of this " ++ languageNameL language ++
  " customer feedback about a banking app.\n\nComment: \"" ++ comment ++
  "\"\n\nRespond with ONLY a JSON object in this exact format:\n\x7b\n  \"sentiment\": \"positive|negative|neutral\",\n  \"confidence\": 0.85,\n  \"explanation\": \"Brief reason\"\n\x7d\n\nConsider banking context: complaints about fees, app crashes, customer service issues are negative. Praise for features, ease of use, good support are positive."

/-- Result shape of `LocalLLM.analyzeSentiment`.  `sentiment` and
`explanation` hold whatever JS value ends up in the field (`none` =
`undefined`); `confidence` is a JS number where `none` models `NaN`. -/
structure SentimentResultL where
  sentiment : Option JValue
  confidence : Option ℚ
  explanation : Option JValue

/-- local-llm.ts keyword table, positive polarity. -/
def positiveWords : List String :=
  ["good", "great", "excellent", "love", "amazing", "perfect", "easy", "fast", "helpful"]

/-- local-llm.ts keyword table, negative polarity. -/
def negativeWords : List String :=
  ["bad", "terrible", "awful", "hate", "slow", "crash", "error", "problem", "issue", "expensive"]

def countKeywordHits (words : List String) (lower : List Char) : Nat :=
  (words.filter fun w => containsSub w.data lower).length

/-- The keyword fallback of `LocalLLM.analyzeSentiment` (local-llm.ts lines
129-143): taken when the greedy regex finds no JSON object in the reply. -/
def sentimentKeywordFallback (comment : String) : SentimentResultL :=
  let lower := (jsToLower comment).data
  let positiveCount := countKeywordHits positiveWords lower
  let negativeCount := countKeywordHits negativeWords lower
  if positiveCount > negativeCount then ⟨some (.str "positive"), some (6/10), none⟩
  else if negativeCount > positiveCount then ⟨some (.str "negative"), some (6/10), none⟩
  else ⟨some (.str "neutral"), some (5/10), none⟩

/-- `Math.min(Math.max(result.confidence || 0.5, 0), 1)`. -/
def clampConfidence (v : Option JValue) : Option ℚ :=
  jsMin (jsMax (jsToNumber (jsOrJ v (.num (5/10)))) 0) 1

/-- `LocalLLM.analyzeSentiment(comment, language)` (local-llm.ts), with the
generate call abstracted by `gen`.  Returns the result together with the
number of generate calls made.  Control flow from the source: empty or
whitespace-only comment short-circuits before any model call; a located
greedy-regex JSON match is `JSON.parse`d (a parse throw lands in the outer
catch, NOT in the keyword fallback); only a reply with no locatable JSON
object reaches the keyword fallback; a generate throw lands in the outer
catch. -/
def localAnalyzeSentiment (comment language : String) (gen : String → GenResult) :
    SentimentResultL × Nat :=
  if comment == "" || (jsTrim comment).data.isEmpty then
    (⟨some (.str "neutral"), some 0, some (.str "Empty comment")⟩, 0)
  else
    match gen (localSentimentPrompt comment language) with
    | .failure => (⟨some (.str "neutral"), some (3/10), none⟩, 1)
    | .reply raw =>
      let response := jsTrim raw
      match braceMatchGreedy response with
      | some jstr =>
        match parseJsonText jstr with
        | some v =>
          (⟨fieldOf v "sentiment", clampConfidence (fieldOf v "confidence"),
            fieldOf v "explanation"⟩, 1)
        | none => (⟨some (.str "neutral"), some (3/10), none⟩, 1)
      | none => (sentimentKeywordFallback comment, 1)

/-- ollama-llm.ts `languageInstructions` names with the `|| en` fallback. -/
def languageNameO (language : String) : String :=
  if language == "de" then "German"
  else if language == "fr" then "French"
  else if language == "it" then "Italian"
  else "English"

/-- ollama-llm.ts `languageInstructions` example blocks. -/
def languageExamplesO (language : String) : String :=
  if language == "de" then
    "Positive: \"Einfach zu bedienen\", \"Schnelle Überweisungen\", \"Guter Service\"\nNegative: \"Hohe Gebühren\", \"App stürzt ab\", \"Schlechter Support\", \"Zu teuer\"\nNeutral: \"Funktioniert\", \"Durchschnittlich\", \"Könnte besser sein\""
  else if language == "fr" then
    "Positive: \"Facile à utiliser\", \"Transferts rapides\", \"Bon service\"\nNegative: \"Frais élevés\", \"L'app plante\", \"Mauvais support\", \"Trop cher\"\nNeutral: \"Ça marche\", \"Moyen\", \"Pourrait être mieux\""
  else if language == "it" then
    "Positive: \"Facile da usare\", \"Trasferimenti veloci\", \"Buon servizio\"\nNegative: \"Commissioni alte\", \"App si blocca\", \"Supporto scarso\", \"Troppo caro\"\nNeutral: \"Funziona\", \"Nella media\", \"Potrebbe essere meglio\""
  else
    "Positive: \"Easy to use\", \"Fast transfers\", \"Great service\"\nNegative: \"High fees\", \"App crashes\", \"Poor support\", \"Too expensive\", \"Costly\"\nNeutral: \"Works fine\", \"Average\", \"Could be better\""

/-- The sentiment prompt of `OllamaLLM.analyzeSentiment` (ollama-llm.ts). -/
def ollamaSentimentPrompt (comment language : String) : String :=
  "You are a Swiss banking app sentiment analyzer. Analyze this " ++
  languageNameO language ++ " customer feedback.\n\nCustomer Comment: \"" ++
  comment ++
  "\"\n\nContext: Swiss banking mobile app (payments, trading, accounts, investments)\n\n" ++
  languageExamplesO language ++
  "\n\nBanking-specific sentiment rules:\n- Positive: Praise for features, security, ease of use, fast transactions, good customer service\n- Negative: Complaints about fees, technical issues, crashes, slow performance, poor customer service, security concerns\n- Neutral: Factual statements, feature requests, mixed feedback, neutral observations\n\nRespond with ONLY this JSON format:\n\x7b\n  \"sentiment\": \"positive|negative|neutral\",\n  \"explanation\": \"Brief explanation in English\"\n\x7d\n\nJSON Response:"

/-- Result shape of `OllamaLLM.analyzeSentiment` (ollama-llm.ts): no
confidence field exists on this interface. -/
structure SentimentResultO where
  sentiment : JValue
  explanation : JValue

/-- `OllamaLLM.analyzeSentiment(comment, language)` (ollama-llm.ts), generate
call abstracted by `gen`; second component counts generate calls.  The lazy
regex locates the first `{`..`}` span; `parsed.sentiment || 'neutral'` is the
only normalisation — a truthy parsed sentiment is passed through as-is. -/
def ollamaAnalyzeSentiment (comment language : String) (gen : String → GenResult) :
    SentimentResultO × Nat :=
  if comment == "" || (jsTrim comment).data.isEmpty then
    (⟨.str "neutral", .str "Empty comment"⟩, 0)
  else
    match gen (ollamaSentimentPrompt comment language) with
    | .failure => (⟨.str "neutral", .str "Analysis failed"⟩, 1)
    | .reply raw =>
      let response := jsTrim raw
      match braceMatchLazy response with
      | some jstr =>
        match parseJsonText jstr with
        | some parsed =>
          (⟨jsOrJ (fieldOf parsed "sentiment") (.str "neutral"),
            jsOrJ (fieldOf parsed "explanation") (.str "Analysis completed")⟩, 1)
        | none => (⟨.str "neutral", .str "Analysis failed"⟩, 1)
      | none => (⟨.str "neutral", .str "Could not parse response"⟩, 1)

/- ===================== Progress tracker ===================== -/

/-- `ProcessingStatus` (ai-processing-status.ts); timestamps are abstract
ticks, `none` = the `null` of the initial state. -/
structure TrackerState where
  total : Nat
  processed : Nat
  inProgress : Bool
  startTime : Option Nat
  lastUpdate : Option Nat
  deriving Repr, DecidableEq

/-- The module-initial tracker value. -/
def TrackerState.initial : TrackerState := ⟨0, 0, false, none, none⟩

/-- `startProcessing(totalCount)`: wholesale reset of the status object. -/
def TrackerState.startProcessing (n now : Nat) : TrackerState :=
  ⟨n, 0, true, some now, some now⟩

/-- `incrementProcessed()`. -/
def TrackerState.increment (t : TrackerState) (now : Nat) : TrackerState :=
  { t with processed := t.processed + 1, lastUpdate := some now }

/-- `completeProcessing()`. -/
def TrackerState.complete (t : TrackerState) (now : Nat) : TrackerState :=
  { t with inProgress := false, lastUpdate := some now }

/-- `getProgress()`: `Math.round(processed / total * 100)` with the
`total == 0` guard.  `round(q) = ⌊q + 1/2⌋` matches JS `Math.round` for the
non-negative values that occur. -/
def TrackerState.progressPercent (t : TrackerState) : Int :=
  if t.total = 0 then 0 else ⌊(t.processed : ℚ) / (t.total : ℚ) * 100 + 1/2⌋

/-- One externally-invoked tracker operation, tagged with its timestamp. -/
inductive TrackerOp where
  | start (n : Nat) (now : Nat)
  | increment (now : Nat)
  | complete (now : Nat)
  deriving Repr, DecidableEq

def execOp (t : TrackerState) : TrackerOp → TrackerState
  | .start n now => TrackerState.startProcessing n now
  | .increment now => t.increment now
  | .complete now => t.complete now

def execOps (t : TrackerState) (ops : List TrackerOp) : TrackerState :=
  ops.foldl execOp t

/- ===================== Response store rows ===================== -/

/-- One row of `nps_responses` as `getResponses` returns it (topics joined in
from `topic_mentions`).  `none` models SQL NULL / JS null-or-undefined. -/
structure DbRow where
  id : Nat
  rating : Int
  comment : Option String
  language : Option String
  sentiment : Option String
  sentiment_confidence : Option ℚ
  topics : List (String × ℚ)
  deriving Repr, DecidableEq

/-- JS truthiness of a nullable string field. -/
def jsTruthyStr : Option String → Bool
  | none => false
  | some s => !(s == "")

/-- JS `s || dflt` for strings. -/
def jsOrStr (s dflt : String) : String := if s == "" then dflt else s

/-- The pending-enrichment filter of `processCommentsWithAI` (routes.ts lines
28-32): `r.comment && r.comment.trim().length > 0 &&
(!r.sentiment || r.sentiment === 'neutral')`. -/
def needsProcessing (r : DbRow) : Bool :=
  jsTruthyStr r.comment && !(jsTrim (r.comment.getD "")).data.isEmpty &&
    (!jsTruthyStr r.sentiment || r.sentiment == some "neutral")

/-- The enrichment record the orchestrator persists per row. -/
structure EnrichUpdate where
  sentiment : String
  sentiment_confidence : ℚ
  topics : List (String × ℚ)
  deriving Repr, DecidableEq

/-- Modelled from the spec: `LocalDB.updateResponse(id, {sentiment,
sentiment_confidence, topics})` is invoked by the orchestrator (routes.ts line
57) but no definition of it appears in the repository files at hand
(local-db.ts has only insert/query operations).  The spec's Response Store
interface specifies `updateEnrichment(id, {sentiment, confidence, topics})`:
a typed write persisting the enrichment fields to the row keyed by id,
leaving all other columns unchanged. -/
def updateResponse (rows : List DbRow) (id : Nat) (u : EnrichUpdate) : List DbRow :=
  rows.map fun r =>
    if r.id == id then
      { r with sentiment := some u.sentiment,
               sentiment_confidence := some u.sentiment_confidence,
               topics := u.topics }
    else r

/- ===================== Enrichment orchestrator ===================== -/

/-- Per-row outcome of the body of the orchestrator's try-block: `.ok s tp`
bundles the sentiment string of `analyzeSentiment` and the topics list of
`extractTopics` when all of steps 1-2 succeed; `.err` models a throw anywhere
in the try-block (classification or persistence), which skips the store write
and lands in the per-row catch. -/
inductive RowOutcome where
  | ok (sentiment : String) (topics : List (String × ℚ))
  | err
  deriving Repr, DecidableEq

/-- What the loop body persists for a successful row (routes.ts lines 57-61):
`sentiment: sentimentResult.sentiment || 'neutral'`, a fixed
`sentiment_confidence: 0.8`, and `topics: topicsResult.topics || []` (the
topics list is always an array here, and even `[]` is truthy in JS). -/
def mkEnrichUpdate (s : String) (tp : List (String × ℚ)) : EnrichUpdate :=
  ⟨jsOrStr s "neutral", 8/10, tp⟩

/-- Everything a finished loop leaves behind: the store rows, the tracker,
and the log of store writes, oldest first. -/
structure LoopOut where
  rows : List DbRow
  tracker : TrackerState
  writes : List (Nat × EnrichUpdate)
  clock : Nat

/-- The sequential for-loop of `processCommentsWithAI` (routes.ts lines
42-73): per pending row, classify, persist, `incrementProcessed()`; any throw
is caught and the row is still counted. -/
def processLoop (oracle : DbRow → RowOutcome) :
    List DbRow → List DbRow → TrackerState → Nat → LoopOut
  | [], rows, t, now => ⟨rows, t, [], now⟩
  | r :: rest, rows, t, now =>
    match oracle r with
    | .ok s tp =>
      let u := mkEnrichUpdate s tp
      let out := processLoop oracle rest (updateResponse rows r.id u) (t.increment now) (now + 1)
      { out with writes := (r.id, u) :: out.writes }
    | .err => processLoop oracle rest rows (t.increment now) (now + 1)

/-- Result of one `processCommentsWithAI()` invocation.  `scanFailed` records
the outer catch having swallowed a scan-time store error (it is only
logged). -/
structure RunResult where
  rows : List DbRow
  tracker : TrackerState
  writes : List (Nat × EnrichUpdate)
  scanFailed : Bool

/-- `processCommentsWithAI` (routes.ts lines 24-81).  `scanOk = false` models
`LocalDB.getResponses({})` throwing (store unavailable at scan time): the
outer catch logs the error and the function returns with no tracker start and
no writes.  Otherwise: filter the pending rows; if none, return before
touching the tracker; else `startProcessing(count)`, run the loop, and
`completeProcessing()`. -/
def processCommentsWithAI (scanOk : Bool) (rows : List DbRow)
    (t : TrackerState) (oracle : DbRow → RowOutcome) (now : Nat) : RunResult :=
  if !scanOk then ⟨rows, t, [], true⟩
  else
    let commentsToProcess := rows.filter needsProcessing
    if commentsToProcess.isEmpty then ⟨rows, t, [], false⟩
    else
      let t1 := TrackerState.startProcessing commentsToProcess.length now
      let out := processLoop oracle commentsToProcess rows t1 (now + 1)
      ⟨out.rows, out.tracker.complete out.clock, out.writes, false⟩

/-- The HTTP acknowledgment of `POST /api/process-ai`: `409 {success:false}`
when a run is in progress, else `200 {success:true}` — sent fire-and-forget,
before and independently of the background run's outcome. -/
inductive TriggerResponse where
  | conflict
  | accepted
  deriving Repr, DecidableEq

/-- The `/api/process-ai` handler (routes.ts lines 174-198): reject with 409
if `aiTracker.isProcessing()`, otherwise kick off `processCommentsWithAI()`
(not awaited) and answer `200 {success:true, message}` immediately. -/
def processAiTrigger (scanOk : Bool) (rows : List DbRow) (t : TrackerState)
    (oracle : DbRow → RowOutcome) (now : Nat) : TriggerResponse × RunResult :=
  if t.inProgress then (.conflict, ⟨rows, t, [], false⟩)
  else (.accepted, processCommentsWithAI scanOk rows t oracle now)

/- ===================== LocalDB.insertResponse ===================== -/

/-- The argument record of `LocalDB.insertResponse` (local-db.ts). -/
structure InsertData where
  rating : Int
  comment : Option String
  language : Option String
  date : String
  customer_id : Option String
  visitor_id : Option String
  platform : Option String
  sentiment : Option String
  sentiment_confidence : Option ℚ
  deriving Repr, DecidableEq

/-- The columns `insertResponse` binds into the INSERT. -/
structure StoredResponse where
  rating : Int
  comment : Option String
  language : Option String
  date : String
  customer_id : Option String
  visitor_id : Option String
  platform : Option String
  sentiment : Option String
  sentiment_confidence : Option ℚ
  deriving Repr, DecidableEq

/-- JS `v || null` on a nullable string: `undefined`, `null` and `""` all
become SQL NULL. -/
def jsOrNullStr : Option String → Option String
  | none => none
  | some s => if s == "" then none else some s

/-- JS `v || null` on a nullable number: `undefined`, `null` and `0` all
become SQL NULL (NaN, also falsy, cannot reach this call site: the only
callers pass literals or schema-validated numbers). -/
def jsOrNullNum : Option ℚ → Option ℚ
  | none => none
  | some q => if q == 0 then none else some q

/-- `LocalDB.insertResponse(data)` (local-db.ts lines 66-94): every optional
parameter is passed through `|| null`. -/
def insertResponse (d : InsertData) : StoredResponse :=
  ⟨d.rating, jsOrNullStr d.comment, jsOrNullStr d.language, d.date,
   jsOrNullStr d.customer_id, jsOrNullStr d.visitor_id, jsOrNullStr d.platform,
   jsOrNullStr d.sentiment, jsOrNullNum d.sentiment_confidence⟩

/- ===================== NPS segmentation ===================== -/

/-- The response-group ternary used by `/api/csv` (routes.ts lines 231-233)
and verbatim again by `/api/upload` and `/api/nps-responses/bulk`:
`rating >= 9 ? 'Promoter' : rating >= 7 ? 'Passive' : 'Detractor'`. -/
def responseGroup (rating : Int) : String :=
  if rating ≥ 9 then "Promoter" else if rating ≥ 7 then "Passive" else "Detractor"

/-- The promoter filter of `/api/nps-stats` (routes.ts line 120), of
`/api/stats/nps` and of `LocalDB.getNPSStats`: `r.rating >= 9`. -/
def isPromoterRating (rating : Int) : Bool := rating ≥ 9

/-- The passive filter: `r.rating >= 7 && r.rating <= 8`. -/
def isPassiveRating (rating : Int) : Bool := rating ≥ 7 && rating ≤ 8

/-- The detractor filter: `r.rating <= 6`. -/
def isDetractorRating (rating : Int) : Bool := rating ≤ 6

/- ===================== Claim-level observations ===================== -/

/-- The spec's three-way sentiment enum, as a predicate on a JS field value:
holds exactly when the field is the string `positive`, `negative` or
`neutral`. -/
def validSentimentLabel : Option JValue → Bool
  | some (.str s) => s == "positive" || s == "negative" || s == "neutral"
  | _ => false

/-- Observation on a raw reply, mirroring the greedy-extraction path of
`LocalLLM.analyzeSentiment`: `true` unless the reply contains a parseable
JSON object whose `sentiment` field is missing, non-string, or a string
outside the three-way enum. -/
def replySentimentOk (raw : String) : Bool :=
  match braceMatchGreedy (jsTrim raw) with
  | none => true
  | some jstr =>
    match parseJsonText jstr with
    | none => true
    | some v => validSentimentLabel (fieldOf v "sentiment")

/-- The `inProgress` flag a tracker-op sequence should leave behind: `true`
exactly when a `startProcessing` has happened with no `completeProcessing`
after it. -/
def runPhase : Bool → List TrackerOp → Bool
  | b, [] => b
  | _, .start _ _ :: rest => runPhase true rest
  | b, .increment _ :: rest => runPhase b rest
  | _, .complete _ :: rest => runPhase false rest

/-- The orchestrator's call discipline on the tracker: every
`incrementProcessed` happens inside a run opened by `startProcessing(n)`,
with fewer than `n` increments made since.  The argument is the remaining
capacity of the open run (`none` before any `startProcessing`). -/
def disciplined : Option Nat → List TrackerOp → Bool
  | _, [] => true
  | _, .start n _ :: rest => disciplined (some n) rest
  | cap, .increment _ :: rest =>
    (match cap with
     | some (k + 1) => disciplined (some k) rest
     | _ => false)
  | cap, .complete _ :: rest => disciplined cap rest

/- ===================== Helper lemmas ===================== -/

theorem execOps_append (t : TrackerState) (ops : List TrackerOp) (op : TrackerOp) :
    execOps t (ops ++ [op]) = execOp (execOps t ops) op := by
  simp [execOps, List.foldl_append]

theorem execOps_inProgress (ops : List TrackerOp) :
    ∀ t : TrackerState, (execOps t ops).inProgress = runPhase t.inProgress ops := by
  induction ops with
  | nil => intro t; rfl
  | cons op rest ih =>
    intro t
    cases op <;>
      simp [execOps, List.foldl_cons, runPhase, execOp, TrackerState.increment,
        TrackerState.complete, TrackerState.startProcessing] <;>
      simpa [execOps] using ih _

theorem execOps_processed_le (ops : List TrackerOp) :
    ∀ (t : TrackerState) (cap : Option Nat), disciplined cap ops = true →
      (match cap with
       | some k => t.processed + k ≤ t.total
       | none => t.processed ≤ t.total) →
      (execOps t ops).processed ≤ (execOps t ops).total := by
  induction ops with
  | nil =>
    intro t cap _ hinv
    cases cap with
    | none => exact hinv
    | some k => exact le_trans (Nat.le_add_right _ _) hinv
  | cons op rest ih =>
    intro t cap hd hinv
    cases op with
    | start n now =>
      have : execOps t (.start n now :: rest) = execOps (TrackerState.startProcessing n now) rest := rfl
      rw [this]
      exact ih _ (some n) (by simpa [disciplined] using hd) (by simp [TrackerState.startProcessing])
    | increment now =>
      cases cap with
      | none => simp [disciplined] at hd
      | some k =>
        cases k with
        | zero => simp [disciplined] at hd
        | succ k' =>
          have : execOps t (.increment now :: rest) = execOps (t.increment now) rest := rfl
          rw [this]
          refine ih _ (some k') (by simpa [disciplined] using hd) ?_
          have : t.processed + (k' + 1) ≤ t.total := by
            cases cap' : (some (k' + 1) : Option Nat) <;> simp_all
          simp [TrackerState.increment]
          omega
    | complete now =>
      have : execOps t (.complete now :: rest) = execOps (t.complete now) rest := rfl
      rw [this]
      refine ih _ cap (by simpa [disciplined] using hd) ?_
      cases cap <;> simpa [TrackerState.complete] using hinv

theorem processLoop_tracker (oracle : DbRow → RowOutcome) :
    ∀ (l rows : List DbRow) (t : TrackerState) (now : Nat),
      (processLoop oracle l rows t now).tracker.processed = t.processed + l.length
      ∧ (processLoop oracle l rows t now).tracker.inProgress = t.inProgress := by
  intro l
  induction l with
  | nil => intro rows t now; simp [processLoop]
  | cons r rest ih =>
    intro rows t now
    cases h : oracle r with
    | ok s tp =>
      have := ih (updateResponse rows r.id (mkEnrichUpdate s tp)) (t.increment now) (now + 1)
      simp only [processLoop, h] at *
      constructor
      · rw [this.1]; simp [TrackerState.increment]; omega
      · rw [this.2]; rfl
    | err =>
      have := ih rows (t.increment now) (now + 1)
      simp only [processLoop, h] at *
      constructor
      · rw [this.1]; simp [TrackerState.increment]; omega
      · rw [this.2]; rfl

/-- The row transformation `updateResponse` applies to the row keyed by the
target id. -/
def applyEnrich (u : EnrichUpdate) (r : DbRow) : DbRow :=
  { r with sentiment := some u.sentiment,
           sentiment_confidence := some u.sentiment_confidence,
           topics := u.topics }

theorem updateResponse_eq (rows : List DbRow) (i : Nat) (u : EnrichUpdate) :
    updateResponse rows i u
      = rows.map (fun r => if r.id == i then applyEnrich u r else r) := rfl

theorem applyEnrich_id (u : EnrichUpdate) (r : DbRow) :
    (applyEnrich u r).id = r.id := rfl

theorem needsProcessing_applyEnrich (u : EnrichUpdate) (r : DbRow)
    (hs : u.sentiment ≠ "") (hn : u.sentiment ≠ "neutral") :
    needsProcessing (applyEnrich u r) = false := by
  have h1 : (u.sentiment == "") = false := beq_eq_false_iff_ne.mpr hs
  have h2 : (some u.sentiment == some "neutral") = false := by
    simp [hn]
  simp [needsProcessing, applyEnrich, jsTruthyStr, h1, h2]

theorem updFun_id (u : EnrichUpdate) (j : Nat) (r : DbRow) :
    (if r.id == j then applyEnrich u r else r).id = r.id := by
  by_cases h : r.id == j <;> simp [h, applyEnrich_id]

theorem updateResponse_filter_congr (i j : Nat) (u : EnrichUpdate) (rows : List DbRow) :
    (updateResponse rows j u).filter (fun r => r.id == i)
      = (rows.filter (fun r => r.id == i)).map
          (fun r => if r.id == j then applyEnrich u r else r) := by
  rw [updateResponse_eq, List.filter_map]
  congr 1
  refine List.filter_congr ?_
  intro r _
  simp only [Function.comp_apply]
  rw [updFun_id]

theorem updateResponse_filter_ne (i j : Nat) (u : EnrichUpdate) (hij : i ≠ j)
    (rows : List DbRow) :
    (updateResponse rows j u).filter (fun r => r.id == i)
      = rows.filter (fun r => r.id == i) := by
  rw [updateResponse_filter_congr]
  have h : ∀ r ∈ rows.filter (fun r => r.id == i),
      (if r.id == j then applyEnrich u r else r) = id r := by
    intro r hr
    have hi : r.id = i := by simpa using (List.mem_filter.mp hr).2
    have : ¬ (r.id == j) = true := by simp [hi]; exact fun h => hij h
    simp [this]
  rw [List.map_congr_left h, List.map_id]

theorem updateResponse_filter_eq (i : Nat) (u : EnrichUpdate) (rows : List DbRow) :
    (updateResponse rows i u).filter (fun r => r.id == i)
      = (rows.filter (fun r => r.id == i)).map (applyEnrich u) := by
  rw [updateResponse_filter_congr]
  refine List.map_congr_left ?_
  intro r hr
  have hi : r.id = i := by simpa using (List.mem_filter.mp hr).2
  simp [hi]

theorem processLoop_filter_untouched (oracle : DbRow → RowOutcome) (i : Nat) :
    ∀ (l rows : List DbRow) (t : TrackerState) (now : Nat),
      (∀ w ∈ l, w.id ≠ i) →
      (processLoop oracle l rows t now).rows.filter (fun r => r.id == i)
        = rows.filter (fun r => r.id == i) := by
  intro l
  induction l with
  | nil => intro rows t now _; rfl
  | cons w rest ih =>
    intro rows t now h
    have hw : w.id ≠ i := h w (List.mem_cons_self w rest)
    have hrest : ∀ w' ∈ rest, w'.id ≠ i := fun w' hw' => h w' (List.mem_cons_of_mem w hw')
    cases ho : oracle w with
    | ok s tp =>
      simp only [processLoop, ho]
      rw [ih _ _ _ hrest, updateResponse_filter_ne i w.id _ (fun hiw => hw hiw.symm)]
    | err =>
      simp only [processLoop, ho]
      exact ih _ _ _ hrest

theorem processLoop_writes_mem (oracle : DbRow → RowOutcome) :
    ∀ (l rows : List DbRow) (t : TrackerState) (now : Nat) (r : DbRow)
      (s : String) (tp : List (String × ℚ)), r ∈ l → oracle r = .ok s tp →
      (r.id, mkEnrichUpdate s tp) ∈ (processLoop oracle l rows t now).writes := by
  intro l
  induction l with
  | nil => intro rows t now r s tp hr _; exact absurd hr (List.not_mem_nil r)
  | cons w rest ih =>
    intro rows t now r s tp hr ho
    rcases List.mem_cons.mp hr with heq | hmem
    · subst heq
      simp only [processLoop, ho, List.mem_cons]
      left; trivial
    · cases how : oracle w with
      | ok s' tp' =>
        simp only [processLoop, how, List.mem_cons]
        right; exact ih _ _ _ r s tp hmem ho
      | err =>
        simp only [processLoop, how]
        exact ih _ _ _ r s tp hmem ho

theorem processLoop_filter_at (oracle : DbRow → RowOutcome) :
    ∀ (l rows : List DbRow) (t : TrackerState) (now : Nat) (r : DbRow)
      (s : String) (tp : List (String × ℚ)),
      (l.map DbRow.id).Nodup → r ∈ l → oracle r = .ok s tp →
      (processLoop oracle l rows t now).rows.filter (fun x => x.id == r.id)
        = (rows.filter (fun x => x.id == r.id)).map (applyEnrich (mkEnrichUpdate s tp)) := by
  intro l
  induction l with
  | nil => intro rows t now r s tp _ hr; exact absurd hr (List.not_mem_nil r)
  | cons w rest ih =>
    intro rows t now r s tp hnd hr ho
    have hnd' : (rest.map DbRow.id).Nodup := (List.nodup_cons.mp hnd).2
    have hwid : w.id ∉ rest.map DbRow.id := (List.nodup_cons.mp hnd).1
    rcases List.mem_cons.mp hr with heq | hmem
    · subst heq
      simp only [processLoop, ho]
      rw [processLoop_filter_untouched oracle r.id rest _ _ _
          (fun w' hw' hid => hwid (hid ▸ List.mem_map_of_mem DbRow.id hw')),
        updateResponse_filter_eq]
    · have hrid : r.id ∈ rest.map DbRow.id := List.mem_map_of_mem DbRow.id hmem
      have hne : w.id ≠ r.id := fun h => hwid (h ▸ hrid)
      cases how : oracle w with
      | ok s' tp' =>
        simp only [processLoop, how]
        rw [ih _ _ _ r s tp hnd' hmem ho,
          updateResponse_filter_ne r.id w.id _ (fun h => hne h.symm)]
      | err =>
        simp only [processLoop, how]
        exact ih _ _ _ r s tp hnd' hmem ho

theorem processLoop_clears (oracle : DbRow → RowOutcome) :
    ∀ (l rows : List DbRow) (t : TrackerState) (now : Nat),
      (∀ w ∈ l, ∃ s tp, oracle w = .ok s tp ∧ s ≠ "" ∧ s ≠ "neutral") →
      (∀ r ∈ rows, needsProcessing r = true → ∃ w ∈ l, w.id = r.id) →
      ∀ x ∈ (processLoop oracle l rows t now).rows, needsProcessing x = false := by
  intro l
  induction l with
  | nil =>
    intro rows t now _ hcover x hx
    rcases Bool.eq_false_or_eq_true (needsProcessing x) with ht | hf
    · rcases hcover x hx ht with ⟨w, hw, _⟩
      exact absurd hw (List.not_mem_nil w)
    · exact hf
  | cons w rest ih =>
    intro rows t now hok hcover
    rcases hok w (List.mem_cons_self w rest) with ⟨s, tp, ho, hs, hn⟩
    have hsent : (mkEnrichUpdate s tp).sentiment = s := by
      simp [mkEnrichUpdate, jsOrStr, hs]
    simp only [processLoop, ho]
    intro x hx
    refine ih (updateResponse rows w.id (mkEnrichUpdate s tp)) _ _
      (fun w' hw' => hok w' (List.mem_cons_of_mem w hw')) ?_ x hx
    intro r hrmem hrneeds
    rw [updateResponse_eq] at hrmem
    rcases List.mem_map.mp hrmem with ⟨r0, hr0, hfr⟩
    by_cases hid : r0.id == w.id
    · exfalso
      rw [if_pos hid] at hfr
      have : needsProcessing r = false := by
        rw [← hfr]
        refine needsProcessing_applyEnrich _ r0 ?_ ?_ <;> rw [hsent] <;> assumption
      rw [this] at hrneeds; exact Bool.false_ne_true hrneeds
    · rw [if_neg hid] at hfr
      subst hfr
      rcases hcover r0 hr0 hrneeds with ⟨w', hw', hwid⟩
      rcases List.mem_cons.mp hw' with heq | hmem
      · exfalso; subst heq; exact hid (beq_iff_eq.mpr hwid.symm)
      · exact ⟨w', hmem, hwid⟩

theorem processCommentsWithAI_no_pending (rows : List DbRow) (t : TrackerState)
    (oracle : DbRow → RowOutcome) (now : Nat)
    (h : rows.filter needsProcessing = []) :
    processCommentsWithAI true rows t oracle now = ⟨rows, t, [], false⟩ := by
  simp [processCommentsWithAI, h]

/- ===================== Claim theorems ===================== -/

/-- C3: For every run over N pending rows in which any subset of rows throws
during classification or persistence (the per-row oracle is arbitrary, so any
0 ≤ M ≤ N rows may yield `.err`), every row is still counted and the run ends
with `processed = N` and `inProgress = false`; the loop never aborts on a
single row's failure. -/
theorem c3_partial_failures (rows : List DbRow) (t : TrackerState)
    (oracle : DbRow → RowOutcome) (now : Nat)
    (h : (rows.filter needsProcessing).isEmpty = false) :
    (processCommentsWithAI true rows t oracle now).tracker.processed
        = (rows.filter needsProcessing).length
    ∧ (processCommentsWithAI true rows t oracle now).tracker.inProgress = false := by
  have hloop := processLoop_tracker oracle (rows.filter needsProcessing) rows
    (TrackerState.startProcessing (rows.filter needsProcessing).length now) (now + 1)
  simp only [processCommentsWithAI, Bool.not_true, Bool.false_eq_true, if_false, h]
  constructor
  · simp only [TrackerState.complete]
    rw [hloop.1]
    simp [TrackerState.startProcessing]
  · simp [TrackerState.complete]

/-- Witness for C3: a concrete two-pending-row store where one row's
classification succeeds and the other throws; the run ends fully counted and
not in progress. -/
theorem c3_partial_failures_witness :
    ((([⟨1, 2, some "bad app", some "en", none, none, []⟩,
        ⟨2, 9, some "good", some "en", some "neutral", none, []⟩] :
          List DbRow).filter needsProcessing).isEmpty = false)
    ∧ ((processCommentsWithAI true
          [⟨1, 2, some "bad app", some "en", none, none, []⟩,
           ⟨2, 9, some "good", some "en", some "neutral", none, []⟩]
          TrackerState.initial
          (fun r => if r.id == 1 then .ok "negative" [] else .err) 0).tracker.processed
        = (([⟨1, 2, some "bad app", some "en", none, none, []⟩,
             ⟨2, 9, some "good", some "en", some "neutral", none, []⟩] :
               List DbRow).filter needsProcessing).length
       ∧ (processCommentsWithAI true
            [⟨1, 2, some "bad app", some "en", none, none, []⟩,
             ⟨2, 9, some "good", some "en", some "neutral", none, []⟩]
            TrackerState.initial
            (fun r => if r.id == 1 then .ok "negative" [] else .err) 0).tracker.inProgress
          = false) :=
  ⟨by decide,
   c3_partial_failures _ TrackerState.initial
     (fun r => if r.id == 1 then .ok "negative" [] else .err) 0 (by decide)⟩

/-- C6 counterexample: with the store unavailable at scan time (the scan
query throws) and no run in progress, the `/api/process-ai` trigger still
answers with the success acknowledgment — the failure is NOT surfaced to the
caller as a failure response (it is only swallowed and logged); no run starts
(tracker untouched, no writes). -/
theorem c6_counterexample :
    (processAiTrigger false [⟨1, 3, some "bad", some "en", none, none, []⟩]
        TrackerState.initial (fun _ => RowOutcome.err) 0).1 = TriggerResponse.accepted
    ∧ (processAiTrigger false [⟨1, 3, some "bad", some "en", none, none, []⟩]
        TrackerState.initial (fun _ => RowOutcome.err) 0).2.tracker = TrackerState.initial
    ∧ (processAiTrigger false [⟨1, 3, some "bad", some "en", none, none, []⟩]
        TrackerState.initial (fun _ => RowOutcome.err) 0).2.writes = [] :=
  ⟨rfl, rfl, rfl⟩

/-- C6 amended: if the Response Store scan throws when the trigger is made
while no run is in progress, the error is swallowed by the orchestrator's
outer catch (recorded only in the log, `scanFailed = true`); the trigger
nevertheless answers with the 200 success acknowledgment, and no run starts —
the tracker is not started, no row is processed and no write happens. -/
theorem c6_scan_failure_swallowed (rows : List DbRow) (t : TrackerState)
    (oracle : DbRow → RowOutcome) (now : Nat) (h : t.inProgress = false) :
    processAiTrigger false rows t oracle now
      = (TriggerResponse.accepted, ⟨rows, t, [], true⟩) := by
  simp [processAiTrigger, processCommentsWithAI, h]

/-- Witness for C6 amended: concrete trigger against an idle tracker with a
throwing scan. -/
theorem c6_scan_failure_swallowed_witness :
    (TrackerState.initial.inProgress = false)
    ∧ processAiTrigger false [⟨1, 3, some "bad", some "en", none, none, []⟩]
        TrackerState.initial (fun _ => RowOutcome.err) 7
        = (TriggerResponse.accepted,
           ⟨[⟨1, 3, some "bad", some "en", none, none, []⟩],
            TrackerState.initial, [], true⟩) :=
  ⟨rfl, c6_scan_failure_swallowed _ TrackerState.initial (fun _ => RowOutcome.err) 7 rfl⟩

/-- C7: for the empty comment and any all-whitespace comment, both
`analyzeSentiment` implementations short-circuit to a neutral result with an
`Empty comment` explanation and never invoke the inference endpoint (the
generate-call count is 0); the LocalLLM result carries `confidence: 0`
explicitly (the OllamaLLM result interface has no confidence field). -/
theorem c7_empty_short_circuit (comment language : String)
    (h : (jsTrim comment).data = []) (gen gen2 : String → GenResult) :
    localAnalyzeSentiment comment language gen
        = (⟨some (.str "neutral"), some 0, some (.str "Empty comment")⟩, 0)
    ∧ ollamaAnalyzeSentiment comment language gen2
        = (⟨.str "neutral", .str "Empty comment"⟩, 0) := by
  constructor
  · simp [localAnalyzeSentiment, h]
  · simp [ollamaAnalyzeSentiment, h]

/-- Witness for C7 at the whitespace-only comment. -/
theorem c7_empty_short_circuit_witness :
    ((jsTrim "  ").data = [])
    ∧ (localAnalyzeSentiment "  " "en" (fun _ => .failure)
          = (⟨some (.str "neutral"), some 0, some (.str "Empty comment")⟩, 0)
       ∧ ollamaAnalyzeSentiment "  " "en" (fun _ => .failure)
          = (⟨.str "neutral", .str "Empty comment"⟩, 0)) :=
  ⟨rfl, c7_empty_short_circuit "  " "en" rfl (fun _ => .failure) (fun _ => .failure)⟩

/-- C8 counterexample: the tracker state invariant `processed ≤ total` does
NOT hold after every op sequence from the initial state —
`incrementProcessed` is unconditional, so a lone increment yields
`processed = 1 > 0 = total`. -/
theorem c8_counterexample :
    ¬ ((execOps TrackerState.initial [TrackerOp.increment 0]).processed
        ≤ (execOps TrackerState.initial [TrackerOp.increment 0]).total) := by
  decide

/-- C8 amended: under the orchestrator's call discipline (each
`incrementProcessed` happens inside a run opened by `startProcessing n` with
fewer than `n` increments since), `0 ≤ processed ≤ total` holds after any op
sequence from the initial state; `inProgress` is true exactly between a
`startProcessing` and the matching `completeProcessing` (`runPhase`); and any
`startProcessing n` resets the whole state to `{total := n, processed := 0,
inProgress := true}`. -/
theorem c8_tracker_invariants (ops : List TrackerOp)
    (h : disciplined none ops = true) :
    (execOps TrackerState.initial ops).processed
        ≤ (execOps TrackerState.initial ops).total
    ∧ (execOps TrackerState.initial ops).inProgress = runPhase false ops
    ∧ ∀ n now, execOps TrackerState.initial (ops ++ [TrackerOp.start n now])
        = TrackerState.startProcessing n now := by
  refine ⟨execOps_processed_le ops TrackerState.initial none h (le_refl 0),
    execOps_inProgress ops TrackerState.initial, ?_⟩
  intro n now
  rw [execOps_append]
  rfl

/-- Witness for C8 amended at a concrete disciplined sequence. -/
theorem c8_tracker_invariants_witness :
    (disciplined none
        [TrackerOp.start 2 0, TrackerOp.increment 1, TrackerOp.increment 2,
         TrackerOp.complete 3] = true)
    ∧ ((execOps TrackerState.initial
          [TrackerOp.start 2 0, TrackerOp.increment 1, TrackerOp.increment 2,
           TrackerOp.complete 3]).processed
        ≤ (execOps TrackerState.initial
            [TrackerOp.start 2 0, TrackerOp.increment 1, TrackerOp.increment 2,
             TrackerOp.complete 3]).total
       ∧ (execOps TrackerState.initial
            [TrackerOp.start 2 0, TrackerOp.increment 1, TrackerOp.increment 2,
             TrackerOp.complete 3]).inProgress
          = runPhase false
              [TrackerOp.start 2 0, TrackerOp.increment 1, TrackerOp.increment 2,
               TrackerOp.complete 3]
       ∧ execOps TrackerState.initial
            ([TrackerOp.start 2 0, TrackerOp.increment 1, TrackerOp.increment 2,
              TrackerOp.complete 3] ++ [TrackerOp.start 5 9])
          = TrackerState.startProcessing 5 9) :=
  ⟨by decide,
   (c8_tracker_invariants _ (by decide)).1,
   (c8_tracker_invariants _ (by decide)).2.1,
   (c8_tracker_invariants _ (by decide)).2.2 5 9⟩

/-- C9: for every integer rating in 0..10, the derived `responseGroup` is
`Promoter` iff rating ≥ 9, `Passive` iff 7 ≤ rating ≤ 8 and `Detractor` iff
rating ≤ 6; and the promoter/passive/detractor filter predicates used by the
stats endpoints agree with `responseGroup` everywhere on this range. -/
theorem c9_response_group (r : Int) (h0 : 0 ≤ r) (h10 : r ≤ 10) :
    ((responseGroup r = "Promoter") ↔ 9 ≤ r)
    ∧ ((responseGroup r = "Passive") ↔ (7 ≤ r ∧ r ≤ 8))
    ∧ ((responseGroup r = "Detractor") ↔ r ≤ 6)
    ∧ (isPromoterRating r = true ↔ responseGroup r = "Promoter")
    ∧ (isPassiveRating r = true ↔ responseGroup r = "Passive")
    ∧ (isDetractorRating r = true ↔ responseGroup r = "Detractor") := by
  unfold responseGroup isPromoterRating isPassiveRating isDetractorRating
  by_cases h9 : 9 ≤ r
  · rw [if_pos h9]
    refine ⟨iff_of_true rfl h9, ?_, ?_, ?_, ?_, ?_⟩
    · exact iff_of_false (by decide) (by omega)
    · exact iff_of_false (by decide) (by omega)
    · simp [h9]
    · constructor
      · intro hb; exfalso; simp at hb; omega
      · intro hs; exact absurd hs (by decide)
    · constructor
      · intro hb; exfalso; simp at hb; omega
      · intro hs; exact absurd hs (by decide)
  · rw [if_neg h9]
    by_cases h7 : 7 ≤ r
    · rw [if_pos h7]
      refine ⟨iff_of_false (by decide) h9, iff_of_true rfl ⟨h7, by omega⟩, ?_, ?_, ?_, ?_⟩
      · exact iff_of_false (by decide) (by omega)
      · constructor
        · intro hb; exfalso; simp at hb; omega
        · intro hs; exact absurd hs (by decide)
      · simp [h7]; omega
      · constructor
        · intro hb; exfalso; simp at hb; omega
        · intro hs; exact absurd hs (by decide)
    · rw [if_neg h7]
      refine ⟨iff_of_false (by decide) h9, ?_, iff_of_true rfl (by omega), ?_, ?_, ?_⟩
      · exact iff_of_false (by decide) (by omega)
      · constructor
        · intro hb; exfalso; simp at hb; omega
        · intro hs; exact absurd hs (by decide)
      · constructor
        · intro hb; exfalso; simp at hb; omega
        · intro hs; exact absurd hs (by decide)
      · simp; omega

/-- Witness for C9 at rating 9. -/
theorem c9_response_group_witness :
    ((0 : Int) ≤ 9 ∧ (9 : Int) ≤ 10)
    ∧ (((responseGroup 9 = "Promoter") ↔ (9 : Int) ≤ 9)
       ∧ ((responseGroup 9 = "Passive") ↔ ((7 : Int) ≤ 9 ∧ (9 : Int) ≤ 8))
       ∧ ((responseGroup 9 = "Detractor") ↔ (9 : Int) ≤ 6)
       ∧ (isPromoterRating 9 = true ↔ responseGroup 9 = "Promoter")
       ∧ (isPassiveRating 9 = true ↔ responseGroup 9 = "Passive")
       ∧ (isDetractorRating 9 = true ↔ responseGroup 9 = "Detractor")) :=
  ⟨⟨by norm_num, by norm_num⟩, c9_response_group 9 (by norm_num) (by norm_num)⟩

/-- C10 (implicit): `LocalDB.insertResponse` passes every optional field
through `|| null`, so every falsy value is stored as NULL — in particular a
`sentiment_confidence` of 0 and an empty-string comment are persisted as
NULL, never as the number 0 or the string `""`; a zero-confidence sentinel
cannot round-trip through the store as the number 0. -/
theorem c10_falsy_becomes_null (d : InsertData) :
    (insertResponse d).sentiment_confidence ≠ some 0
    ∧ (insertResponse d).comment ≠ some ""
    ∧ ((insertResponse d).sentiment_confidence = none
        ↔ (d.sentiment_confidence = none ∨ d.sentiment_confidence = some 0))
    ∧ ((insertResponse d).comment = none
        ↔ (d.comment = none ∨ d.comment = some "")) := by
  refine ⟨?_, ?_, ?_, ?_⟩
  · cases hc : d.sentiment_confidence with
    | none => simp [insertResponse, jsOrNullNum, hc]
    | some q =>
      by_cases hq : q = 0
      · simp [insertResponse, jsOrNullNum, hc, hq]
      · simp [insertResponse, jsOrNullNum, hc, hq]
  · cases hc : d.comment with
    | none => simp [insertResponse, jsOrNullStr, hc]
    | some s =>
      by_cases hs : s = ""
      · simp [insertResponse, jsOrNullStr, hc, hs]
      · simp [insertResponse, jsOrNullStr, hc, hs]
  · cases hc : d.sentiment_confidence with
    | none => simp [insertResponse, jsOrNullNum, hc]
    | some q =>
      by_cases hq : q = 0
      · simp [insertResponse, jsOrNullNum, hc, hq]
      · simp [insertResponse, jsOrNullNum, hc, hq]
  · cases hc : d.comment with
    | none => simp [insertResponse, jsOrNullStr, hc]
    | some s =>
      by_cases hs : s = ""
      · simp [insertResponse, jsOrNullStr, hc, hs]
      · simp [insertResponse, jsOrNullStr, hc, hs]

/-- C1 counterexample: the enrichment run is NOT idempotent as claimed.  One
pending row (non-empty comment, NULL sentiment) whose classification returns
`neutral` is written back as sentiment `neutral` — which the pending filter
(`!r.sentiment || r.sentiment === 'neutral'`) matches again.  With no new
rows inserted in between, the second run finds 1 pending row, starts the
tracker with `total = 1` (not 0) and performs a store write. -/
theorem c1_counterexample :
    (processCommentsWithAI true
        (processCommentsWithAI true [⟨1, 3, some "ok", some "en", none, none, []⟩]
          TrackerState.initial (fun _ => .ok "neutral" []) 0).rows
        (processCommentsWithAI true [⟨1, 3, some "ok", some "en", none, none, []⟩]
          TrackerState.initial (fun _ => .ok "neutral" []) 0).tracker
        (fun _ => .ok "neutral" []) 100).tracker.total = 1
    ∧ (processCommentsWithAI true
        (processCommentsWithAI true [⟨1, 3, some "ok", some "en", none, none, []⟩]
          TrackerState.initial (fun _ => .ok "neutral" []) 0).rows
        (processCommentsWithAI true [⟨1, 3, some "ok", some "en", none, none, []⟩]
          TrackerState.initial (fun _ => .ok "neutral" []) 0).tracker
        (fun _ => .ok "neutral" []) 100).writes.length = 1 :=
  ⟨rfl, rfl⟩

/-- C1 amended: the second run completes immediately — it finds no pending
row, leaves the tracker untouched and performs no store write — provided
every pending row of the first run is classified and persisted successfully
with a sentiment other than the falsy string and the `neutral` sentinel
(exactly the outcomes the counterexample excludes; a row written as `neutral`
or skipped by a throw stays pending and is re-processed). -/
theorem c1_idempotence_amended (rows : List DbRow) (t : TrackerState)
    (oracle : DbRow → RowOutcome) (now now2 : Nat)
    (h : ∀ r ∈ rows.filter needsProcessing,
          ∃ s tp, oracle r = .ok s tp ∧ s ≠ "" ∧ s ≠ "neutral") :
    ((processCommentsWithAI true rows t oracle now).rows.filter needsProcessing = [])
    ∧ processCommentsWithAI true (processCommentsWithAI true rows t oracle now).rows
        (processCommentsWithAI true rows t oracle now).tracker oracle now2
      = ⟨(processCommentsWithAI true rows t oracle now).rows,
         (processCommentsWithAI true rows t oracle now).tracker, [], false⟩ := by
  have hmain : (processCommentsWithAI true rows t oracle now).rows.filter needsProcessing
      = [] := by
    by_cases he : (rows.filter needsProcessing).isEmpty
    · simp only [processCommentsWithAI, Bool.not_true, Bool.false_eq_true, if_false,
        if_pos he]
      exact List.isEmpty_iff.mp he
    · simp only [processCommentsWithAI, Bool.not_true, Bool.false_eq_true, if_false,
        if_neg he]
      refine List.filter_eq_nil_iff.mpr ?_
      intro x hx
      have hclear := processLoop_clears oracle (rows.filter needsProcessing) rows
        (TrackerState.startProcessing (rows.filter needsProcessing).length now) (now + 1)
        h (fun r hr hneeds => ⟨r, List.mem_filter.mpr ⟨hr, hneeds⟩, rfl⟩) x hx
      simp [hclear]
  exact ⟨hmain, processCommentsWithAI_no_pending _ _ _ _ hmain⟩

/-- Witness for C1 amended: one pending row classified `negative`; the second
run is a no-op. -/
theorem c1_idempotence_amended_witness :
    (∀ r ∈ ([⟨1, 3, some "bad", some "en", none, none, []⟩] : List DbRow).filter
        needsProcessing,
      ∃ s tp, (fun (_ : DbRow) => RowOutcome.ok "negative" ([] : List (String × ℚ))) r
          = .ok s tp ∧ s ≠ "" ∧ s ≠ "neutral")
    ∧ (((processCommentsWithAI true [⟨1, 3, some "bad", some "en", none, none, []⟩]
          TrackerState.initial (fun _ => .ok "negative" []) 0).rows.filter
            needsProcessing = [])
       ∧ processCommentsWithAI true
           (processCommentsWithAI true [⟨1, 3, some "bad", some "en", none, none, []⟩]
             TrackerState.initial (fun _ => .ok "negative" []) 0).rows
           (processCommentsWithAI true [⟨1, 3, some "bad", some "en", none, none, []⟩]
             TrackerState.initial (fun _ => .ok "negative" []) 0).tracker
           (fun _ => .ok "negative" []) 50
         = ⟨(processCommentsWithAI true [⟨1, 3, some "bad", some "en", none, none, []⟩]
              TrackerState.initial (fun _ => .ok "negative" []) 0).rows,
            (processCommentsWithAI true [⟨1, 3, some "bad", some "en", none, none, []⟩]
              TrackerState.initial (fun _ => .ok "negative" []) 0).tracker, [], false⟩) :=
  ⟨fun r _ => ⟨"negative", [], rfl, by decide, by decide⟩,
   c1_idempotence_amended _ TrackerState.initial _ 0 50
     (fun r _ => ⟨"negative", [], rfl, by decide, by decide⟩)⟩

/-- C2: for every pending row whose classification succeeds in a run, the
orchestrator logs a store write keyed by that row's id carrying the returned
sentiment (defaulted to `neutral` only if falsy), the fixed model-derived
confidence 0.8, and the returned topics; and (with the store's autoincrement
ids distinct) the row's stored record after the run carries exactly those
values. -/
theorem c2_persists_classification (rows : List DbRow) (t : TrackerState)
    (oracle : DbRow → RowOutcome) (now : Nat)
    (hnd : (rows.map DbRow.id).Nodup) (r : DbRow) (hr : r ∈ rows)
    (hp : needsProcessing r = true) (s : String) (tp : List (String × ℚ))
    (ho : oracle r = .ok s tp) :
    ((r.id, mkEnrichUpdate s tp) ∈ (processCommentsWithAI true rows t oracle now).writes)
    ∧ ∀ x ∈ (processCommentsWithAI true rows t oracle now).rows, x.id = r.id →
        x.sentiment = some (jsOrStr s "neutral")
        ∧ x.sentiment_confidence = some (8/10)
        ∧ x.topics = tp := by
  have hrp : r ∈ rows.filter needsProcessing := List.mem_filter.mpr ⟨hr, hp⟩
  have hne : (rows.filter needsProcessing).isEmpty = false := by
    cases hemp : (rows.filter needsProcessing).isEmpty
    · rfl
    · exfalso
      rw [List.isEmpty_iff] at hemp
      rw [hemp] at hrp
      exact absurd hrp (List.not_mem_nil r)
  simp only [processCommentsWithAI, Bool.not_true, Bool.false_eq_true, if_false, hne,
    if_neg (by simp : ¬ (false = true))]
  constructor
  · exact processLoop_writes_mem oracle _ rows _ _ r s tp hrp ho
  · intro x hx hxid
    have hndf : ((rows.filter needsProcessing).map DbRow.id).Nodup :=
      hnd.sublist ((List.filter_sublist rows).map DbRow.id)
    have hfme := processLoop_filter_at oracle (rows.filter needsProcessing) rows
      (TrackerState.startProcessing (rows.filter needsProcessing).length now) (now + 1)
      r s tp hndf hrp ho
    have hxmem : x ∈ (processLoop oracle (rows.filter needsProcessing) rows
        (TrackerState.startProcessing (rows.filter needsProcessing).length now)
        (now + 1)).rows.filter (fun y => y.id == r.id) :=
      List.mem_filter.mpr ⟨hx, beq_iff_eq.mpr hxid⟩
    rw [hfme] at hxmem
    rcases List.mem_map.mp hxmem with ⟨x0, _, hxeq⟩
    refine ⟨?_, ?_, ?_⟩ <;> rw [← hxeq] <;> rfl

/-- Witness for C2: one pending row, distinct ids, successful classification
`negative` with no topics; its write is logged and its stored record updated. -/
theorem c2_persists_classification_witness :
    ((([⟨1, 3, some "bad", some "en", none, none, []⟩,
        ⟨2, 9, some "good", some "en", some "positive", none, []⟩] :
          List DbRow).map DbRow.id).Nodup
     ∧ (⟨1, 3, some "bad", some "en", none, none, []⟩ : DbRow) ∈
        ([⟨1, 3, some "bad", some "en", none, none, []⟩,
          ⟨2, 9, some "good", some "en", some "positive", none, []⟩] : List DbRow)
     ∧ needsProcessing ⟨1, 3, some "bad", some "en", none, none, []⟩ = true
     ∧ (fun (x : DbRow) => if x.id == 1 then RowOutcome.ok "negative" [] else .err)
         ⟨1, 3, some "bad", some "en", none, none, []⟩
         = .ok "negative" [])
    ∧ (((1 : Nat), mkEnrichUpdate "negative" [])
        ∈ (processCommentsWithAI true
            [⟨1, 3, some "bad", some "en", none, none, []⟩,
             ⟨2, 9, some "good", some "en", some "positive", none, []⟩]
            TrackerState.initial
            (fun x => if x.id == 1 then RowOutcome.ok "negative" [] else .err)
            0).writes
       ∧ ∀ x ∈ (processCommentsWithAI true
            [⟨1, 3, some "bad", some "en", none, none, []⟩,
             ⟨2, 9, some "good", some "en", some "positive", none, []⟩]
            TrackerState.initial
            (fun x => if x.id == 1 then RowOutcome.ok "negative" [] else .err)
            0).rows, x.id = 1 →
          x.sentiment = some (jsOrStr "negative" "neutral")
          ∧ x.sentiment_confidence = some (8/10)
          ∧ x.topics = []) :=
  ⟨⟨by decide, by decide, by decide, by decide⟩,
   c2_persists_classification _ TrackerState.initial _ 0 (by decide)
     ⟨1, 3, some "bad", some "en", none, none, []⟩ (by decide) (by decide)
     "negative" [] (by decide)⟩

theorem clampConfidence_bounds (w : Option JValue) (q : ℚ)
    (h : clampConfidence w = some q) : 0 ≤ q ∧ q ≤ 1 := by
  cases hn : jsToNumber (jsOrJ w (.num (5/10))) with
  | none => simp [clampConfidence, jsMin, jsMax, hn] at h
  | some q2 =>
    simp only [clampConfidence, jsMin, jsMax, hn, Option.map_some'] at h
    have hq : q = min (max q2 0) 1 := (Option.some_inj.mp h).symm
    subst hq
    exact ⟨le_min (le_max_right q2 0) zero_le_one, min_le_right _ 1⟩

theorem sentimentKeywordFallback_shape (comment : String) :
    validSentimentLabel (sentimentKeywordFallback comment).sentiment = true
    ∧ ((sentimentKeywordFallback comment).confidence = some (6/10)
       ∨ (sentimentKeywordFallback comment).confidence = some (5/10)) := by
  simp only [sentimentKeywordFallback]
  split_ifs <;> simp [validSentimentLabel]

/-- C4 counterexample: the sentiment of a parsed JSON reply is passed through
unvalidated by both clients — a reply whose JSON carries
`sentiment: "great"` yields the out-of-enum sentiment `great`, refuting the
claim that the result sentiment is always one of positive, negative,
neutral. -/
theorem c4_counterexample :
    validSentimentLabel ((localAnalyzeSentiment "Nice app" "en"
        (fun _ => .reply "\x7b\"sentiment\": \"great\", \"confidence\": 0.9\x7d")).1.sentiment)
      = false
    ∧ (localAnalyzeSentiment "Nice app" "en"
        (fun _ => .reply "\x7b\"sentiment\": \"great\", \"confidence\": 0.9\x7d")).1.sentiment
      = some (.str "great")
    ∧ (ollamaAnalyzeSentiment "Nice app" "en"
        (fun _ => .reply "\x7b\"sentiment\": \"great\"\x7d")).1.sentiment
      = .str "great" :=
  ⟨rfl, rfl, rfl⟩

/-- C4 amended: `classifySentiment` always returns a structurally complete
result without raising, and whenever its confidence is a number at all it
lies in [0,1] (the clamp); but the sentiment is NOT clamped to the three-way
enum: it is in the enum provided the located JSON object (when one parses)
carries a sentiment field that is itself one of the three labels — the field
value is passed through unvalidated (and in the OllamaLLM client only falsy
values are replaced by `neutral`). -/
theorem c4_sentiment_passthrough (comment language : String)
    (gen : String → GenResult)
    (hs : ∀ p reply, gen p = .reply reply → replySentimentOk reply = true) :
    validSentimentLabel (localAnalyzeSentiment comment language gen).1.sentiment = true
    ∧ ∀ q, (localAnalyzeSentiment comment language gen).1.confidence = some q →
        0 ≤ q ∧ q ≤ 1 := by
  unfold localAnalyzeSentiment
  by_cases hc : (comment == "" || (jsTrim comment).data.isEmpty) = true
  · simp only [hc, if_true]
    exact ⟨rfl, fun q hq => by
      have : q = 0 := (Option.some_inj.mp hq).symm
      subst this; norm_num⟩
  · simp only [hc, if_false]
    cases hgen : gen (localSentimentPrompt comment language) with
    | failure =>
      exact ⟨rfl, fun q hq => by
        have : q = 3/10 := (Option.some_inj.mp hq).symm
        subst this; norm_num⟩
    | reply raw =>
      cases hb : braceMatchGreedy (jsTrim raw) with
      | none =>
        simp only [hb]
        rcases sentimentKeywordFallback_shape comment with ⟨hv, hconf⟩
        refine ⟨hv, fun q hq => ?_⟩
        have hq2 : (sentimentKeywordFallback comment).confidence = some q := hq
        rcases hconf with hcf | hcf <;> rw [hcf] at hq2 <;>
          [skip; skip] <;>
          · have hqe := (Option.some_inj.mp hq2).symm
            subst hqe
            norm_num
      | some jstr =>
        simp only [hb]
        cases hp : parseJsonText jstr with
        | none =>
          exact ⟨rfl, fun q hq => by
            have : q = 3/10 := (Option.some_inj.mp hq).symm
            subst this; norm_num⟩
        | some v =>
          have hok2 : validSentimentLabel (fieldOf v "sentiment") = true := by
            have heq : replySentimentOk raw = validSentimentLabel (fieldOf v "sentiment") := by
              simp [replySentimentOk, hb, hp]
            rw [← heq]
            exact hs _ raw hgen
          exact ⟨hok2, fun q hq => clampConfidence_bounds _ q hq⟩

/-- Witness for C4 amended: a reply whose JSON sentiment is `positive` (and
no confidence field, so the clamp defaults to `min (max 0.5 0) 1`). -/
theorem c4_sentiment_passthrough_witness :
    (∀ p reply, (fun (_ : String) =>
          GenResult.reply "\x7b\"sentiment\": \"positive\"\x7d") p = .reply reply →
        replySentimentOk reply = true)
    ∧ validSentimentLabel ((localAnalyzeSentiment "Nice" "en"
        (fun _ => .reply "\x7b\"sentiment\": \"positive\"\x7d")).1.sentiment) = true
    ∧ ((localAnalyzeSentiment "Nice" "en"
          (fun _ => .reply "\x7b\"sentiment\": \"positive\"\x7d")).1.confidence
        = some (min (max ((5 : ℚ)/10) 0) 1)
       → 0 ≤ min (max ((5 : ℚ)/10) 0) 1 ∧ min (max ((5 : ℚ)/10) 0) 1 ≤ 1) :=
  ⟨fun _ _ h => by cases h; rfl,
   (c4_sentiment_passthrough "Nice" "en" _ (fun _ _ h => by cases h; rfl)).1,
   (c4_sentiment_passthrough "Nice" "en" _ (fun _ _ h => by cases h; rfl)).2
     (min (max ((5 : ℚ)/10) 0) 1)⟩

/-- C5: when the model's reply (after the trim of `generate`) contains no
locatable JSON object — the greedy regex finds no match — the LocalLLM
`classifySentiment` result is computed purely from the fixed per-polarity
keyword lists (it equals `sentimentKeywordFallback comment`, a function of
the comment alone), and any two no-JSON replies give the identical result
(deterministic fallback).  The comment must be non-blank: a blank comment
short-circuits before any reply exists. -/
theorem c5_keyword_fallback (comment language reply : String)
    (hne : (jsTrim comment).data.isEmpty = false)
    (hnj : braceMatchGreedy (jsTrim reply) = none) :
    (localAnalyzeSentiment comment language (fun _ => .reply reply)).1
        = sentimentKeywordFallback comment
    ∧ ∀ reply2, braceMatchGreedy (jsTrim reply2) = none →
        (localAnalyzeSentiment comment language (fun _ => .reply reply2)).1
          = (localAnalyzeSentiment comment language (fun _ => .reply reply)).1 := by
  have hcne : (comment == "") = false := by
    cases hcc : comment == ""
    · rfl
    · exfalso
      have hce : comment = "" := by simpa using hcc
      subst hce
      have : (jsTrim "").data.isEmpty = true := rfl
      rw [this] at hne
      cases hne
  constructor
  · simp [localAnalyzeSentiment, hcne, hne, hnj]
  · intro reply2 hnj2
    simp [localAnalyzeSentiment, hcne, hne, hnj, hnj2]

/-- Witness for C5: the comment `app is slow` against two distinct JSON-free
replies. -/
theorem c5_keyword_fallback_witness :
    ((jsTrim "app is slow").data.isEmpty = false)
    ∧ (braceMatchGreedy (jsTrim "no structured output") = none)
    ∧ (localAnalyzeSentiment "app is slow" "en"
        (fun _ => .reply "no structured output")).1
      = sentimentKeywordFallback "app is slow"
    ∧ (localAnalyzeSentiment "app is slow" "en"
        (fun _ => .reply "still nothing here")).1
      = (localAnalyzeSentiment "app is slow" "en"
          (fun _ => .reply "no structured output")).1 :=
  ⟨rfl, rfl,
   (c5_keyword_fallback "app is slow" "en" "no structured output" rfl rfl).1,
   (c5_keyword_fallback "app is slow" "en" "no structured output" rfl rfl).2
     "still nothing here" rfl⟩
